import Mathlib

/-!
Shallow embedding of the six502 NES emulator core (Rust) in Lean 4.

The CPU model follows `src/six502/six502.rs` (struct `Six502` with the
address bus and data latch), the opcode bodies follow
`src/six502/opcodes.rs`, the stack helpers follow `src/six502/util.rs`,
the store dispatcher follows `src/six502/addressing.rs`, and the iNES
loader follows `src/rom.rs`.

Machine integers are embedded as `Nat` with explicit `% 256` / `% 65536`
where the Rust code uses `u8` / `u16` wrapping arithmetic ("release"
semantics: `wrapping_add`, `as` casts, and overflowing `+`/`-`/`!` are
modelled as arithmetic modulo the width). Memory (the `DataBus`) is a
total function from addresses to bytes; the emulator's bus panics on
addresses outside `$0000-$01FF`, which the model makes visible simply by
the address the CPU computes.
-/

/-- CPU state, mirroring `pub struct Six502` in `src/six502/six502.rs`:
registers `a`, `x`, `y`, program counter `pc`, stack pointer `s`, cycle
counter `cy`, status register `p`, the data latch `data`, the address bus
`addr_bus`, and the bus memory as a byte function. -/
structure Six502 where
  a : Nat
  x : Nat
  y : Nat
  pc : Nat
  s : Nat
  cy : Nat
  p : Nat
  data : Nat
  addr_bus : Nat
  mem : Nat → Nat

/-- Read a byte off the bus: address is a `u16`, the stored value a `u8`. -/
def memRead (m : Nat → Nat) (addr : Nat) : Nat :=
  m (addr % 65536) % 256

/-- Write a byte to the bus. -/
def memWrite (m : Nat → Nat) (addr v : Nat) : Nat → Nat :=
  fun q => if q = addr % 65536 then v % 256 else m q

/-- `ByteAccess::load_u8` for `Six502`: read the byte the address bus points at. -/
def load_u8 (st : Six502) : Nat :=
  memRead st.mem st.addr_bus

/-- `ByteAccess::store_u8` for `Six502`: write through the address bus. -/
def store_u8 (st : Six502) (v : Nat) : Six502 :=
  { st with mem := memWrite st.mem st.addr_bus v }

/-- `ByteAccess::bump`: `self.addr_bus += 1` (u16). -/
def bump (st : Six502) : Six502 :=
  { st with addr_bus := (st.addr_bus + 1) % 65536 }

/-- `Cpu::load_u8_bump_pc` (six502.rs): drive the address bus from `pc`,
bump `pc`, latch the byte into `data`. -/
def load_u8_bump_pc (st : Six502) : Six502 :=
  let st1 := { st with addr_bus := st.pc % 65536, pc := (st.pc + 1) % 65536 }
  { st1 with data := load_u8 st1 }

/-- `Cpu::load_u16_bump_pc` (six502.rs): bumps `pc` twice but reads both
bytes from the CURRENT address bus (it never sets `addr_bus` from `pc`),
bumping the bus once in between; returns the little-endian word. -/
def load_u16_bump_pc (st : Six502) : Nat × Six502 :=
  let st1 := { st with pc := (st.pc + 1) % 65536 }
  let st2 := { st1 with data := load_u8 st1, cy := st1.cy + 1 }
  let lo := st2.data
  let st3 := bump st2
  let st4 := { st3 with data := load_u8 st3, pc := (st3.pc + 1) % 65536, cy := st3.cy + 1 }
  let hi := st4.data
  (lo + 256 * hi, st4)

/-- Flag mask `CARRY` (bit 0), from `six502/flags.rs`. -/
def CARRY : Nat := 1

/-- Flag mask `ZERO` (bit 1). -/
def ZERO : Nat := 2

/-- Flag mask `IRQ` (bit 2, interrupt disable). -/
def IRQ_FLAG : Nat := 4

/-- Flag mask `DECIMAL` (bit 3). -/
def DECIMAL : Nat := 8

/-- Flag mask `BREAK` (bit 4). -/
def BREAK : Nat := 16

/-- Flag mask `UNUSED` (bit 5). -/
def UNUSED : Nat := 32

/-- Flag mask `OVERFLOW` (bit 6). -/
def OVERFLOW : Nat := 64

/-- Flag mask `NEGATIVE` (bit 7). -/
def NEGATIVE : Nat := 128

/-- Pure form of `assert_flag` on the packed status byte. -/
def assertFlagP (p f : Nat) (cond : Bool) : Nat :=
  if cond then p ||| f else p &&& (f ^^^ 255)

/-- `set_flag` (util.rs): `self.p |= flag`. -/
def set_flag (st : Six502) (flag : Nat) : Six502 :=
  { st with p := st.p ||| flag }

/-- `clear_flag` (util.rs): `self.p &= !flag` (u8 complement). -/
def clear_flag (st : Six502) (flag : Nat) : Six502 :=
  { st with p := st.p &&& (flag ^^^ 255) }

/-- `assert_flag` (util.rs): set the flag when the condition holds, clear it otherwise. -/
def assert_flag (st : Six502) (flag : Nat) (cond : Bool) : Six502 :=
  if cond then set_flag st flag else clear_flag st flag

/-- `is_flag_set` (util.rs): `self.p & flag != 0`. -/
def is_flag_set (st : Six502) (flag : Nat) : Bool :=
  st.p &&& flag != 0

/-- Modelled from the spec: `update_zn_flags` is called throughout
`opcodes.rs` but its body is not present in the source tree; the spec
(§4.1 `update_zn`) and `util.rs`'s `update_z`/`update_n` define it as
`Z := v == 0` and `N := (v & 0x80) != 0` on the 8-bit value. -/
def update_zn_flags (st : Six502) (v : Nat) : Six502 :=
  assert_flag (assert_flag st ZERO (v == 0)) NEGATIVE ((v &&& 128) != 0)

/-- `check_overflow` (util.rs): `(a ^ res) & (b ^ res) & 0x80 != 0`. -/
def check_overflow (a b res : Nat) : Bool :=
  ((a ^^^ res) &&& (b ^^^ res) &&& 128) != 0

/-- Sign extension of a byte to a `u16`, i.e. Rust `as i8 as u16`. -/
def sext8 (v : Nat) : Nat :=
  if v < 128 then v else v + 65280

/-- `Six502::branch` (opcodes.rs): fetch the relative offset, then update
`pc`. NOTE (faithful to the source): both the `cond && is_flag_set` arm
and the `else` arm add the offset, so the branch is taken regardless of
the flag state; only the (discarded) cycle bookkeeping differs. -/
def branch (st : Six502) (flag : Nat) (cond : Bool) : Six502 :=
  let st1 := load_u8_bump_pc st
  let off := sext8 st1.data
  if cond && is_flag_set st1 flag then
    { st1 with pc := (st1.pc + off) % 65536 }
  else
    { st1 with pc := (st1.pc + off) % 65536 }

/-- `Six502::bpl`: branch on NEGATIVE clear. -/
def bpl (st : Six502) : Six502 := branch st NEGATIVE false

/-- `Six502::bmi`: branch on NEGATIVE set. -/
def bmi (st : Six502) : Six502 := branch st NEGATIVE true

/-- `Six502::bvc`: branch on OVERFLOW clear. -/
def bvc (st : Six502) : Six502 := branch st OVERFLOW false

/-- `Six502::bvs`: branch on OVERFLOW set. -/
def bvs (st : Six502) : Six502 := branch st OVERFLOW true

/-- `Six502::bcc`: branch on CARRY clear. -/
def bcc (st : Six502) : Six502 := branch st CARRY false

/-- `Six502::bcs`: branch on CARRY set. -/
def bcs (st : Six502) : Six502 := branch st CARRY true

/-- `Six502::bne`: branch on ZERO clear (named `bne_op` here because the
root name `bne` is taken by the boolean inequality in core Lean). -/
def bne_op (st : Six502) : Six502 := branch st ZERO false

/-- `Six502::beq`: branch on ZERO set. -/
def beq (st : Six502) : Six502 := branch st ZERO true

/-- `push_u8` (util.rs): store at `0x0100 + s` (u16 sum), then `s := s - 1` wrapping. -/
def push_u8 (st : Six502) (b : Nat) : Six502 :=
  let addr := 256 + st.s
  { st with mem := memWrite st.mem addr b, s := (st.s + 255) % 256 }

/-- `pull_u8` (util.rs): read from `0x0100 + s + 1` — a plain `u16` sum,
with no wrap of the low byte back into the stack page — then `s := s + 1`
wrapping. Returns the byte and the new state. -/
def pull_u8 (st : Six502) : Nat × Six502 :=
  let addr := 256 + st.s + 1
  (memRead st.mem addr, { st with s := (st.s + 1) % 256 })

/-- `push_u16` (util.rs): `store_u16` (low byte first, high at `addr+1`)
at `0x0100 + (s - 1)` where `s - 1` is u8 arithmetic, then `s := s - 2`. -/
def push_u16 (st : Six502) (w : Nat) : Six502 :=
  let addr := 256 + (st.s + 255) % 256
  let m1 := memWrite st.mem addr (w % 256)
  let m2 := memWrite m1 ((addr + 1) % 65536) (w / 256 % 256)
  { st with mem := m2, s := (st.s + 254) % 256 }

/-- `pull_u16` (util.rs): `load_u16` (little endian) from `0x0100 + s + 1`
(again a plain `u16` sum), then `s := s + 2`. -/
def pull_u16 (st : Six502) : Nat × Six502 :=
  let addr := 256 + st.s + 1
  let v := memRead st.mem addr + 256 * memRead st.mem ((addr + 1) % 65536)
  (v, { st with s := (st.s + 2) % 256 })

/-- `Six502::php` (opcodes.rs): push `p | BREAK` (only bit 4, `0x10`). -/
def php (st : Six502) : Six502 :=
  push_u8 st (st.p ||| BREAK)

/-- `Six502::plp` (opcodes.rs): pull a byte and set
`p := val & (p & BREAK)` — faithful to the source line
`self.p = val & (self.p & flags::BREAK);`. -/
def plp (st : Six502) : Six502 :=
  let r := pull_u8 st
  { r.2 with p := r.1 &&& (r.2.p &&& BREAK) }

/-- `Six502::txs` (opcodes.rs): `s := x`, then `update_zn_flags(x)`. -/
def txs (st : Six502) : Six502 :=
  update_zn_flags { st with s := st.x } st.x

/-- `Six502::jsr` (opcodes.rs): capture `pc` BEFORE fetching the operand
word, fetch the word with the (bus-driven) `load_u16_bump_pc`, push the
captured `pc - 1` (u16 wrapping), and jump to the fetched word. -/
def jsr (st : Six502) : Six502 :=
  let pc0 := st.pc
  let r := load_u16_bump_pc st
  let st2 := push_u16 r.2 ((pc0 + 65535) % 65536)
  { st2 with pc := r.1 }

/-- `Six502::rts` (opcodes.rs): pull a word, add 1, load it into `pc`. -/
def rts (st : Six502) : Six502 :=
  let r := pull_u16 st
  { r.2 with pc := (r.1 + 1) % 65536 }

/-- `Six502::jmp_indirect` (opcodes.rs): fetch the pointer word with
`load_u16_bump_pc`, read the target low byte from the CURRENT address bus,
set the bus to `(ptr & 0xff00) | ((ptr + 1) & 0x00ff)`, read the high
byte, and load the little-endian pair into `pc`. -/
def jmp_indirect (st : Six502) : Six502 :=
  let r := load_u16_bump_pc st
  let lo := load_u8 r.2
  let st2 := { r.2 with addr_bus := (r.1 &&& 65280) ||| ((r.1 + 1) &&& 255) }
  let hi := load_u8 st2
  { st2 with pc := lo + 256 * hi }

/-- Body of `Six502::adc` (opcodes.rs) after `dispatch_load` has produced
the operand byte `v`: 16-bit sum with carry-in, carry from bit 8,
overflow via `check_overflow` on the truncated operands and result,
accumulator from the low byte, then `update_zn_flags`. -/
def adc (st : Six502) (v : Nat) : Six502 :=
  let a := st.a
  let res := if is_flag_set st CARRY then a + v + 1 else a + v
  let st1 := assert_flag st CARRY ((res &&& 256) != 0)
  let st2 := assert_flag st1 OVERFLOW (check_overflow (a % 256) (v % 256) (res % 256))
  let st3 := { st2 with a := res % 256 }
  update_zn_flags st3 st3.a

/-- Body of `Six502::sbc` (opcodes.rs) after `dispatch_load` has produced
the operand byte `v`: when CARRY is clear the 16-bit operand gets `+ 1`,
the two's complement `!v + 1` is formed in u16 (wrapping), added with
`overflowing_add` whose carry-out becomes CARRY, and OVERFLOW is computed
by `check_overflow(acc, mem, result)` on the ORIGINAL operand `mem`. -/
def sbc (st : Six502) (v : Nat) : Six502 :=
  let acc := st.a
  let v1 := if is_flag_set st CARRY then v else v + 1
  let twos_comp := (65536 - v1 % 65536) % 65536
  let sum := acc + twos_comp
  let overflow := decide (65536 ≤ sum)
  let a8 := sum % 65536 % 256
  let st1 := assert_flag st CARRY overflow
  let st2 := assert_flag st1 OVERFLOW (check_overflow acc v a8)
  let st3 := { st2 with a := a8 }
  update_zn_flags st3 a8

/-- `AddressingMode` (addressing.rs), source constructor names kept. -/
inductive AddressingMode where
  | Acc_Addrs
  | Abs_Addrs
  | AbsX_Idxd
  | AbsY_Idxd
  | Immediate
  | Ind_Addrs
  | X_Idx_Ind
  | Ind_Y_Idx
  | Zero_Page
  | ZP_X_Idxd
  | ZP_Y_Idxd
  | Impl_Addr
  | Rel_Addrs
  | NoMode
deriving DecidableEq

/-- `Addressing::dispatch_store` for `Six502` (addressing.rs). Returns
`none` for the `todo!()` arms (Impl_Addr, Rel_Addrs, Ind_Addrs, None),
which panic in the source. Faithful details: the Absolute-indexed arms
call `load_u16_bump_pc` TWICE; the `X_Idx_Ind` and `Ind_Y_Idx` arms
shadow the value parameter `v` with the fetched operand byte (`let v =
self.load_u8_bump_pc();`) and therefore store that operand byte. -/
def dispatch_store (st : Six502) (v : Nat) (mode : AddressingMode) : Option Six502 :=
  match mode with
  | .Acc_Addrs => some { st with a := v % 256 }
  | .Abs_Addrs =>
      let r := load_u16_bump_pc st
      some (store_u8 { r.2 with addr_bus := r.1 } v)
  | .AbsX_Idxd =>
      let r1 := load_u16_bump_pc st
      let r2 := load_u16_bump_pc r1.2
      some (store_u8 { r2.2 with addr_bus := (r2.1 + r2.2.x) % 65536 } v)
  | .AbsY_Idxd =>
      let r1 := load_u16_bump_pc st
      let r2 := load_u16_bump_pc r1.2
      some (store_u8 { r2.2 with addr_bus := (r2.1 + r2.2.y) % 65536 } v)
  | .Immediate => some st
  | .Zero_Page =>
      let st1 := load_u8_bump_pc st
      some (store_u8 { st1 with addr_bus := st1.data } v)
  | .ZP_X_Idxd =>
      let st1 := load_u8_bump_pc st
      some (store_u8 { st1 with addr_bus := (st1.data + st1.x) % 256 } v)
  | .ZP_Y_Idxd =>
      let st1 := load_u8_bump_pc st
      some (store_u8 { st1 with addr_bus := (st1.data + st1.y) % 256 } v)
  | .X_Idx_Ind =>
      let st1 := load_u8_bump_pc st
      let v2 := st1.data
      let comp := (st1.x + v2) % 256
      let st2 := { st1 with addr_bus := comp }
      let lo := load_u8 st2
      let st3 := { st2 with addr_bus := (comp + 1) % 256 }
      let hi := load_u8 st3
      let st4 := { st3 with addr_bus := lo + 256 * hi }
      some (store_u8 st4 v2)
  | .Ind_Y_Idx =>
      let st1 := load_u8_bump_pc st
      let v2 := st1.data
      let st2 := { st1 with addr_bus := v2 }
      let lo := load_u8 st2
      let st3 := { st2 with addr_bus := (v2 + 1) % 256 }
      let hi := load_u8 st3
      let eff := lo + 256 * hi
      let st4 := { st3 with addr_bus := (eff + st3.y) % 65536 }
      some (store_u8 st4 v2)
  | _ => none

/-- `Six502::sta` (opcodes.rs): `self.dispatch_store(self.a, mode)`. -/
def sta (st : Six502) (mode : AddressingMode) : Option Six502 :=
  dispatch_store st st.a mode

/-- iNES header record (`Hdr` in rom.rs); the expanded byte sizes are
stored exactly as `load_hdr` computes them. -/
structure Hdr where
  prg_rom_size : Nat
  chr_rom_size : Nat
  prg_ram_size : Nat
  flags_6 : Nat
  tv_pal : Bool
  mapper : Nat
deriving DecidableEq

/-- Parsed ROM (`Rom` in rom.rs). -/
structure Rom where
  hdr : Hdr
  trainer : Option (List Nat)
  prg_rom : List Nat
  chr_rom : List Nat
deriving DecidableEq

/-- nom `tag("NES\x1a")`: require the magic prefix, return the rest. -/
def tagNES (input : List Nat) : Option (List Nat) :=
  match input with
  | 78 :: 69 :: 83 :: 26 :: rest => some rest
  | _ => none

/-- nom `be_u8`: take one byte. -/
def be_u8 (input : List Nat) : Option (List Nat × Nat) :=
  match input with
  | b :: rest => some (rest, b)
  | _ => none

/-- nom `take(n)`: take `n` bytes. -/
def takeN (n : Nat) (input : List Nat) : Option (List Nat × List Nat) :=
  if n ≤ input.length then some (input.drop n, input.take n) else none

/-- `Rom::load_hdr` (rom.rs). Faithful details: `Flags6::from_bits(0b1111
& flag_6)` always succeeds (every low-nibble bit is a defined flag), the
byte-7 check rejects `flag_7 & 0x0C == 0x08`, and the padding check
compares the FIVE-byte literal `b"\x00\x00\x00\x00\x00"` against the
SIX bytes taken — lengths differ, so the comparison never holds. -/
def load_hdr (input : List Nat) : Option (List Nat × Hdr) :=
  match tagNES input with
  | Option.none => Option.none
  | some input =>
  match be_u8 input with
  | Option.none => Option.none
  | some (input, prog_len) =>
  match be_u8 input with
  | Option.none => Option.none
  | some (input, chr_len) =>
  match be_u8 input with
  | Option.none => Option.none
  | some (input, flag_6) =>
  match be_u8 input with
  | Option.none => Option.none
  | some (input, flag_7) =>
  if flag_7 &&& 12 == 8 then Option.none else
  match be_u8 input with
  | Option.none => Option.none
  | some (input, len_ram_banks) =>
  match be_u8 input with
  | Option.none => Option.none
  | some (input, flag_9) =>
  match takeN 6 input with
  | Option.none => Option.none
  | some (input, trail) =>
  if [0, 0, 0, 0, 0] ≠ trail then Option.none else
  some (input,
    { prg_rom_size := 16384 * prog_len
      chr_rom_size := 8192 * chr_len
      prg_ram_size := 8192 * len_ram_banks
      flags_6 := 15 &&& flag_6
      tv_pal := flag_9 &&& 1 == 1
      mapper := (flag_7 &&& 240) ||| (flag_6 >>> 4) })

/-- `Rom::load_body` (rom.rs): optional 512-byte trainer when flag-6 bit 2
is set, then `take(16384 * hdr.prg_rom_size)` and `take(8192 *
hdr.chr_rom_size)` — note the sizes in `hdr` are ALREADY in bytes, so the
multipliers are applied twice. -/
def load_body (hdr : Hdr) (input : List Nat) : Option (List Nat × Rom) :=
  match (if hdr.flags_6 &&& 4 != 0 then
           match takeN 512 input with
           | some (rest, t) => some (rest, some t)
           | Option.none => Option.none
         else some (input, (Option.none : Option (List Nat)))) with
  | Option.none => Option.none
  | some (input, trainer) =>
  match takeN (16384 * hdr.prg_rom_size) input with
  | Option.none => Option.none
  | some (input, prg) =>
  match takeN (8192 * hdr.chr_rom_size) input with
  | Option.none => Option.none
  | some (input, chr) =>
  some (input, { hdr := hdr, trainer := trainer, prg_rom := prg, chr_rom := chr })

/-- `Rom::load_rom` (rom.rs): read exactly 16 header bytes, parse them
with `load_hdr`, then parse the remaining bytes with `load_body`. -/
def load_rom (bytes : List Nat) : Option Rom :=
  match takeN 16 bytes with
  | Option.none => Option.none
  | some (rest, h_buf) =>
  match load_hdr h_buf with
  | some (_, hdr) =>
      match load_body hdr rest with
      | some (_, rom) => some rom
      | Option.none => Option.none
  | Option.none => Option.none

/-- Carry-in value read from the status byte (`C` as a 0/1 number). -/
def carryIn (st : Six502) : Nat :=
  if is_flag_set st CARRY then 1 else 0

/-- An all-zero CPU state used as the base for concrete test states. -/
def st0 : Six502 :=
  ⟨0, 0, 0, 0, 0, 0, 0, 0, 0, fun _ => 0⟩

/-- Memory for the C1 scenario: a BEQ instruction `F0 02` at `$0200`. -/
def memC1 : Nat → Nat :=
  fun q => if q = 512 then 240 else if q = 513 then 2 else 0

/-- Memory for the C2 scenario: operand byte `$05` at `$0300`, and the
zero-page pointer at `$05/$06` holding the effective address `$1234`. -/
def memC2 : Nat → Nat :=
  fun q => if q = 768 then 5 else if q = 5 then 52 else if q = 6 then 18 else 0

/-- Memory for the C5 scenario: `JSR $0300` (`20 00 03`) at `$0200` and an
RTS opcode (`60`) at `$0020` (where the buggy fetch actually jumps). -/
def memC5 : Nat → Nat :=
  fun q => if q = 512 then 32 else if q = 513 then 0 else if q = 514 then 3 else
    if q = 32 then 96 else 0

/-- Memory for the C6 scenario (spec §8 item 8): `JMP ($30FF)` (`6C FF 30`)
at `$0200`, `$30` stored at `$30FF` and `$40` stored at `$3000`. -/
def memC6 : Nat → Nat :=
  fun q => if q = 512 then 108 else if q = 513 then 255 else if q = 514 then 48 else
    if q = 12543 then 48 else if q = 12288 then 64 else 0

/-- Memory for the C7 scenario: `$11` at `$0100` (inside the stack page)
and `$AB` at `$0200` (outside it). -/
def memC7 : Nat → Nat :=
  fun q => if q = 256 then 17 else if q = 512 then 171 else 0

/-- A byte-perfect valid iNES header: magic `NES\x1A`, 1 PRG bank, 1 CHR
bank, all flag bytes zero, padding bytes 10-15 all zero. -/
def validHdrBytes : List Nat :=
  [78, 69, 83, 26, 1, 1, 0, 0, 0, 0, 0, 0, 0, 0, 0, 0]

/-- Concrete CPU state for the C9 witness: `A = 0x50`, `P = 0`. -/
def stW : Six502 :=
  { st0 with a := 80, p := 0 }

lemma assert_flag_p (st : Six502) (f : Nat) (c : Bool) :
    (assert_flag st f c).p = assertFlagP st.p f c := by
  cases c <;> simp [assert_flag, set_flag, clear_flag, assertFlagP]

lemma assert_flag_a (st : Six502) (f : Nat) (c : Bool) :
    (assert_flag st f c).a = st.a := by
  cases c <;> rfl

lemma and_two_pow_ne_zero (x i : Nat) : x &&& 2 ^ i ≠ 0 ↔ x.testBit i = true := by
  rw [Nat.and_two_pow]
  cases h : x.testBit i
  · simp
  · simp [(Nat.two_pow_pos i).ne']

lemma testBit_255 {i : Nat} (hi : i < 8) : (255 : Nat).testBit i = true := by
  have h : (255 : Nat) = 2 ^ 8 - 1 := by norm_num
  rw [h, Nat.testBit_two_pow_sub_one]
  simpa using hi

lemma afp_eq (p f : Nat) (c : Bool) (i : Nat) (h : f.testBit i = true) (h2 : i < 8) :
    (assertFlagP p f c).testBit i = c := by
  cases c <;> simp [assertFlagP, h, testBit_255 h2]

lemma afp_ne (p f : Nat) (c : Bool) (i : Nat) (h : f.testBit i = false) (h2 : i < 8) :
    (assertFlagP p f c).testBit i = p.testBit i := by
  cases c <;> simp [assertFlagP, h, testBit_255 h2]

lemma and_one_ne (x : Nat) : x &&& 1 ≠ 0 ↔ x.testBit 0 = true := by
  have h := and_two_pow_ne_zero x 0
  rw [pow_zero] at h
  exact h

lemma and_two_ne (x : Nat) : x &&& 2 ≠ 0 ↔ x.testBit 1 = true := by
  simpa using and_two_pow_ne_zero x 1

lemma and_64_ne (x : Nat) : x &&& 64 ≠ 0 ↔ x.testBit 6 = true := by
  simpa using and_two_pow_ne_zero x 6

lemma and_128_ne (x : Nat) : x &&& 128 ≠ 0 ↔ x.testBit 7 = true := by
  simpa using and_two_pow_ne_zero x 7

lemma and_256_ne_zero_iff {res : Nat} (h : res < 512) : res &&& 256 ≠ 0 ↔ 255 < res := by
  have h3 := and_two_pow_ne_zero res 8
  norm_num at h3
  rw [ne_eq, h3, Nat.testBit_to_div_mod]
  simp only [decide_eq_true_eq]
  omega

lemma chain_bits (p : Nat) (c1 c2 c3 c4 : Bool) :
    ((assertFlagP (assertFlagP (assertFlagP (assertFlagP p 1 c1) 64 c2)
        2 c3) 128 c4) &&& 1 ≠ 0 ↔ c1 = true)
    ∧ ((assertFlagP (assertFlagP (assertFlagP (assertFlagP p 1 c1) 64 c2)
        2 c3) 128 c4) &&& 64 ≠ 0 ↔ c2 = true)
    ∧ ((assertFlagP (assertFlagP (assertFlagP (assertFlagP p 1 c1) 64 c2)
        2 c3) 128 c4) &&& 2 ≠ 0 ↔ c3 = true)
    ∧ ((assertFlagP (assertFlagP (assertFlagP (assertFlagP p 1 c1) 64 c2)
        2 c3) 128 c4) &&& 128 ≠ 0 ↔ c4 = true) := by
  refine ⟨?_, ?_, ?_, ?_⟩
  · rw [and_one_ne, afp_ne _ 128 c4 0 (by decide) (by decide),
      afp_ne _ 2 c3 0 (by decide) (by decide), afp_ne _ 64 c2 0 (by decide) (by decide),
      afp_eq _ 1 c1 0 (by decide) (by decide)]
  · rw [and_64_ne, afp_ne _ 128 c4 6 (by decide) (by decide),
      afp_ne _ 2 c3 6 (by decide) (by decide), afp_eq _ 64 c2 6 (by decide) (by decide)]
  · rw [and_two_ne, afp_ne _ 128 c4 1 (by decide) (by decide),
      afp_eq _ 2 c3 1 (by decide) (by decide)]
  · rw [and_128_ne, afp_eq _ 128 c4 7 (by decide) (by decide)]

lemma adc_fields (st : Six502) (v : Nat) :
    (adc st v).a = (if is_flag_set st CARRY then st.a + v + 1 else st.a + v) % 256 ∧
    (adc st v).p =
      assertFlagP (assertFlagP (assertFlagP (assertFlagP st.p CARRY
        (((if is_flag_set st CARRY then st.a + v + 1 else st.a + v) &&& 256) != 0))
        OVERFLOW (check_overflow (st.a % 256) (v % 256)
          ((if is_flag_set st CARRY then st.a + v + 1 else st.a + v) % 256)))
        ZERO (((if is_flag_set st CARRY then st.a + v + 1 else st.a + v) % 256) == 0))
        NEGATIVE ((((if is_flag_set st CARRY then st.a + v + 1 else st.a + v) % 256) &&& 128)
          != 0) := by
  constructor <;> simp [adc, update_zn_flags, assert_flag_p, assert_flag_a]


lemma takeN_length {n : Nat} {l r t : List Nat} (h : takeN n l = some (r, t)) :
    t.length = n := by
  unfold takeN at h
  split at h
  · simp only [Option.some.injEq, Prod.mk.injEq] at h
    obtain ⟨h1, h2⟩ := h
    subst h2
    simp [List.length_take]
    omega
  · cases h

lemma load_hdr_none (input : List Nat) : load_hdr input = Option.none := by
  unfold load_hdr
  repeat' split
  all_goals try rfl
  rename_i heq h
  exfalso
  rw [not_ne_iff] at h
  have h6 := takeN_length heq
  rw [← h] at h6
  simp at h6

/-- C1: the claim says a branch instruction moves `PC` to the branch
target iff its flag condition holds, and otherwise leaves `PC` at the
fall-through address. Counter-evaluation of the code: executing `BEQ +2`
(via `beq`, i.e. `branch(ZERO, cond=true)`) with `Z = 0` and the offset
byte `2` at `$0201` still lands on `$0204` — the branch target — instead
of the fall-through address `$0202`, because both arms of `branch` add
the offset to `PC`. -/
theorem C1_branch_taken_despite_false_condition :
    (beq { st0 with pc := 513, p := 0, mem := memC1 }).pc = 516 ∧ (516 : Nat) ≠ 514 := by
  constructor
  · decide
  · decide

/-- C2: the claim says STA writes the accumulator to the resolved
effective address in every supported mode. Counter-evaluation: with
`A = 0x42`, `X = 0`, operand byte `$05` and the zero-page pointer
`$05/$06` holding `$1234`, `sta` in `(Indirect,X)` mode stores `0x05`
(the operand byte, which shadows the value parameter in
`dispatch_store`) at `$1234` instead of `0x42`. -/
theorem C2_sta_indexed_indirect_stores_operand_byte :
    (sta { st0 with a := 66, x := 0, pc := 768, mem := memC2 } .X_Idx_Ind).map
      (fun st => memRead st.mem 4660) = some 5 ∧ (5 : Nat) ≠ 66 := by
  constructor
  · decide
  · decide

/-- C3: the claim says SBC with operand `M` matches ADC with operand
`M XOR 0xFF` in accumulator and C, V, Z, N. Counter-evaluation at
`A = 0x00`, `M = 0x01`, `C = 1`: both produce accumulator `0xFF`, but the
code's `sbc` sets V (it feeds the ORIGINAL operand to `check_overflow`)
while `adc` with `0x01 XOR 0xFF = 0xFE` clears V. -/
theorem C3_sbc_overflow_differs_from_adc_complement :
    (sbc { st0 with a := 0, p := 1 } 1).a = (adc { st0 with a := 0, p := 1 } (1 ^^^ 255)).a
    ∧ ((sbc { st0 with a := 0, p := 1 } 1).p &&& OVERFLOW) = 64
    ∧ ((adc { st0 with a := 0, p := 1 } (1 ^^^ 255)).p &&& OVERFLOW) = 0 := by
  refine ⟨?_, ?_, ?_⟩ <;> decide

/-- C4: the claim says PHP pushes `P | 0x30` and PLP restores `P` with the
pulled B discarded and bit 5 forced to 1. Counter-evaluation at
`P = 0xC1`, `S = 0xFD`: `php` pushes `0xD1` (it ors in only `0x10`, not
`0x30 = 241`), and `php` followed by `plp` leaves `P = 0` (the source
line `p = val & (p & BREAK)` masks everything away), not the claimed
`0xE1 = 225`. -/
theorem C4_php_plp_mangle_status :
    memRead (php { st0 with p := 193, s := 253 }).mem 509 = 209
    ∧ (209 : Nat) ≠ 193 ||| 48
    ∧ (plp (php { st0 with p := 193, s := 253 })).p = 0
    ∧ (0 : Nat) ≠ 225 := by
  refine ⟨?_, ?_, ?_, ?_⟩ <;> decide

/-- C5: the claim says `JSR target; RTS` resumes at the byte after the
3-byte JSR. Counter-evaluation: `JSR $0300` at `$0200` with `S = 0xFD`
jumps to `$0020` (the operand word is read off the stale address bus, so
it sees the opcode byte `0x20` and first operand byte `0x00`), pushes
`$0200` (the pre-operand `pc - 1`, not next-instruction-minus-one
`$0202`), and after the subroutine's RTS the CPU resumes at `$0201`
instead of `$0203`. -/
theorem C5_jsr_rts_returns_to_wrong_address :
    (jsr (load_u8_bump_pc { st0 with pc := 512, s := 253, mem := memC5 })).pc = 32
    ∧ (rts (load_u8_bump_pc (jsr
        (load_u8_bump_pc { st0 with pc := 512, s := 253, mem := memC5 })))).pc = 513
    ∧ (513 : Nat) ≠ 515 := by
  refine ⟨?_, ?_, ?_⟩ <;> decide

/-- C6: the claim (and spec scenario §8 item 8) says `JMP ($30FF)` with
`$30` at `$30FF` and `$40` at `$3000` must set `PC = 0x4030 = 16432`.
Counter-evaluation: executing opcode fetch plus `jmp_indirect` on exactly
that memory ends with `PC = 0x00FF = 255`, because `load_u16_bump_pc`
reads the pointer bytes from the stale address bus (the opcode byte and
first operand) rather than from `PC`. -/
theorem C6_jmp_indirect_wrong_target :
    (jmp_indirect (load_u8_bump_pc { st0 with pc := 512, mem := memC6 })).pc = 255
    ∧ (255 : Nat) ≠ 16432 := by
  constructor
  · decide
  · decide

/-- C7: the claim says every pull increments `S` mod 256 and then loads
from `0x0100 | S`, all accesses staying inside `$0100-$01FF`.
Counter-evaluation: with `S = 0xFF`, `pull_u8` computes the plain 16-bit
sum `0x0100 + 0xFF + 1 = 0x0200` and returns the byte stored there
(`0xAB = 171`), not the byte at `0x0100` (`0x11 = 17`) that the claimed
wrap-around address `0x0100 | ((S+1) mod 256)` holds. -/
theorem C7_pull_at_top_escapes_stack_page :
    (pull_u8 { st0 with s := 255, mem := memC7 }).1 = 171
    ∧ memRead memC7 256 = 17
    ∧ (171 : Nat) ≠ 17 := by
  refine ⟨?_, ?_, ?_⟩ <;> decide

/-- C8: the claim says TXS copies X to S and leaves every bit of `P`
unchanged. Counter-evaluation: with `X = 0` and `P = 0`, `txs` sets
`S = 0` but also calls `update_zn_flags(x)`, turning `P` into `2`
(Z set), so `P` is not preserved. -/
theorem C8_txs_updates_flags :
    (txs { st0 with x := 0, p := 0, s := 5 }).s = 0
    ∧ (txs { st0 with x := 0, p := 0, s := 5 }).p = 2
    ∧ (2 : Nat) ≠ 0 := by
  refine ⟨?_, ?_, ?_⟩ <;> decide

/-- C9: for every initial accumulator, operand byte and carry flag,
`adc` sets the accumulator to `(A + M + C) mod 256`, sets CARRY iff
`A + M + C > 0xFF`, sets OVERFLOW iff
`((A ^ R) & (M ^ R) & 0x80) != 0` for the final 8-bit result `R`, and
sets ZERO and NEGATIVE from `R`, exactly as the claim states. -/
theorem C9_adc_functional (st : Six502) (v : Nat) (ha : st.a < 256) (hv : v < 256) :
    (adc st v).a = (st.a + v + carryIn st) % 256
    ∧ ((adc st v).p &&& CARRY ≠ 0 ↔ 255 < st.a + v + carryIn st)
    ∧ ((adc st v).p &&& OVERFLOW ≠ 0 ↔
        ((st.a ^^^ (st.a + v + carryIn st) % 256) &&&
          (v ^^^ (st.a + v + carryIn st) % 256) &&& 128) ≠ 0)
    ∧ ((adc st v).p &&& ZERO ≠ 0 ↔ (st.a + v + carryIn st) % 256 = 0)
    ∧ ((adc st v).p &&& NEGATIVE ≠ 0 ↔ ((st.a + v + carryIn st) % 256) &&& 128 ≠ 0) := by
  obtain ⟨hA, hP⟩ := adc_fields st v
  have hres : (if is_flag_set st CARRY then st.a + v + 1 else st.a + v)
      = st.a + v + carryIn st := by
    cases hC : is_flag_set st CARRY <;> simp [carryIn, hC]
  rw [hres] at hA hP
  have hcle : carryIn st ≤ 1 := by
    cases hC : is_flag_set st CARRY <;> simp [carryIn, hC]
  have hb : st.a + v + carryIn st < 512 := by omega
  have hch := chain_bits st.p ((st.a + v + carryIn st &&& 256) != 0)
      (check_overflow (st.a % 256) (v % 256) ((st.a + v + carryIn st) % 256))
      (((st.a + v + carryIn st) % 256) == 0)
      ((((st.a + v + carryIn st) % 256) &&& 128) != 0)
  rw [CARRY, OVERFLOW, ZERO, NEGATIVE] at hP
  refine ⟨hA, ?_, ?_, ?_, ?_⟩
  · rw [CARRY, hP, hch.1]
    simp only [bne_iff_ne]
    exact and_256_ne_zero_iff hb
  · rw [OVERFLOW, hP, hch.2.1]
    simp [check_overflow, bne_iff_ne, Nat.mod_eq_of_lt ha, Nat.mod_eq_of_lt hv]
  · rw [ZERO, hP, hch.2.2.1]
    simp [beq_iff_eq]
  · rw [NEGATIVE, hP, hch.2.2.2]
    simp [bne_iff_ne]

/-- Witness for C9 at the spec's §8 scenario 6: `A = 0x50`, `M = 0x50`,
`C = 0` (state `stW`); the hypotheses hold and the conclusion follows by
applying `C9_adc_functional` itself. -/
theorem C9_adc_functional_witness :
    (stW.a < 256 ∧ (80 : Nat) < 256)
    ∧ ((adc stW 80).a = (stW.a + 80 + carryIn stW) % 256
      ∧ ((adc stW 80).p &&& CARRY ≠ 0 ↔ 255 < stW.a + 80 + carryIn stW)
      ∧ ((adc stW 80).p &&& OVERFLOW ≠ 0 ↔
          ((stW.a ^^^ (stW.a + 80 + carryIn stW) % 256) &&&
            (80 ^^^ (stW.a + 80 + carryIn stW) % 256) &&& 128) ≠ 0)
      ∧ ((adc stW 80).p &&& ZERO ≠ 0 ↔ (stW.a + 80 + carryIn stW) % 256 = 0)
      ∧ ((adc stW 80).p &&& NEGATIVE ≠ 0 ↔ ((stW.a + 80 + carryIn stW) % 256) &&& 128 ≠ 0)) :=
  ⟨⟨by decide, by decide⟩, C9_adc_functional stW 80 (by decide) (by decide)⟩

/-- C10: the claim says `load_rom` returns a parsed `Rom` for every
well-formed iNES stream. In fact the loader can never succeed on ANY
input: `load_hdr` compares the five-byte literal `b"\x00..\x00"` with
the six padding bytes it just took, which always differ in length, so
every header — including the byte-perfect `validHdrBytes` — is rejected
and `load_rom` always returns an error. -/
theorem C10_load_rom_never_parses :
    (∀ bytes : List Nat, load_rom bytes = Option.none)
    ∧ load_hdr validHdrBytes = Option.none := by
  constructor
  · intro bytes
    unfold load_rom
    split
    · rfl
    · rw [load_hdr_none]
  · exact load_hdr_none validHdrBytes
